import Mathlib

/-!
Verification of the purview-governance core pipeline against its spec.

The definitions below are shallow embeddings of the Python sources:
  * `src/functions/shared/normalizer.py` — label-tier normalization and
    statewide aggregation,
  * `src/functions/shared/table_client.py` — posture-entity construction and
    the latest-snapshot-per-agency selection,
  * `src/functions/shared/validation.py` — the ingestion payload schema.

Python floats are modelled as rationals (`ℚ`), Python ints as `ℤ`,
dictionaries with a fixed key set as structures (a key read with
`.get(k, "")` / `.get(k, 0)` becomes a field whose absent value is `""` / `0`).
Python's `round(x, 2)` (banker's rounding, half to even) is `round2`.
-/

/-! ## Substring matching (Python's `needle in haystack`) -/

/-- `isPrefixChars n h` : the char list `n` is a prefix of `h`. -/
def isPrefixChars : List Char → List Char → Bool
  | [], _ => true
  | _ :: _, [] => false
  | a :: n, b :: h => a = b && isPrefixChars n h

/-- `infixChars n h` : the char list `n` occurs contiguously inside `h`. -/
def infixChars (n : List Char) : List Char → Bool
  | [] => n.isEmpty
  | c :: h => isPrefixChars n (c :: h) || infixChars n h

/-- Python's `needle in haystack` on strings: substring containment. -/
def strContains (hay needle : String) : Bool :=
  infixChars needle.toList hay.toList

/-- Python's `str.lower()`, modelled characterwise (`Char.toLower`; the
label keywords and all inputs of interest are basic-latin). -/
def pyLower (s : String) : String :=
  String.mk (s.toList.map Char.toLower)

/-! ## Label normalizer (`src/functions/shared/normalizer.py`) -/

/-- The keyword dictionary `TIER_KEYWORDS` of `normalizer.py`, as a function
from tier name to its keyword list. -/
def TIER_KEYWORDS : String → List String
  | "Restricted" =>
      ["restricted", "highly confidential", "secret", "top secret",
       "classified", "cui", "cjis", "ferpa", "hipaa", "itar",
       "criminal justice", "law enforcement"]
  | "Confidential" =>
      ["confidential", "sensitive", "moderate", "pii", "phi", "fouo",
       "for official use only", "controlled", "protected"]
  | "Internal" =>
      ["internal", "general", "organizational", "default", "low",
       "employee", "staff"]
  | "Public" =>
      ["public", "unrestricted", "open", "external", "published"]
  | _ => []

/-- The tier iteration order of `normalize_label_tier`'s `for` loop. -/
def tierPriority : List String :=
  ["Restricted", "Confidential", "Internal", "Public"]

/-- `normalize_label_tier` of `normalizer.py`: joins parent and label name
with a space, lowercases, returns the first tier in priority order with a
keyword substring match, defaulting to `"Internal"`. -/
def normalize_label_tier (label_name : String) (parent_name : String := "") : String :=
  let combined := pyLower (parent_name ++ " " ++ label_name)
  match tierPriority.find? (fun tier =>
      (TIER_KEYWORDS tier).any (fun kw => strContains combined kw)) with
  | some tier => tier
  | none => "Internal"

/-- A label-taxonomy entry as `normalize_labels` reads it; a missing
`normalized_tier` / `parent_label_name` key is the empty string. -/
structure Label where
  label_id : String
  label_name : String
  parent_label_name : String
  normalized_tier : String
deriving DecidableEq, Repr

/-- `normalize_labels` of `normalizer.py`: attaches `normalized_tier` to each
entry whose tier is falsy (missing or empty), leaving the rest untouched. -/
def normalize_labels (taxonomy : List Label) : List Label :=
  taxonomy.map fun label =>
    if label.normalized_tier = "" then
      { label with
        normalized_tier := normalize_label_tier label.label_name label.parent_label_name }
    else label

/-! ## Statewide aggregator (`src/functions/shared/normalizer.py`) -/

/-- Python's `round(q, 2)` rounds half to even; `pyRound q` is
`round(q)` on an exact rational. -/
def pyRound (q : ℚ) : ℤ :=
  if q - Int.floor q < 1 / 2 then Int.floor q
  else if q - Int.floor q > 1 / 2 then Int.floor q + 1
  else if Int.floor q % 2 = 0 then Int.floor q else Int.floor q + 1

/-- Python's `round(q, 2)`: round to two decimal places, half to even. -/
def round2 (q : ℚ) : ℚ :=
  (pyRound (q * 100) : ℚ) / 100

/-- Insertion into a sorted rational list (for `statistics.median`). -/
def sortedInsert (x : ℚ) : List ℚ → List ℚ
  | [] => [x]
  | y :: rest => if x ≤ y then x :: y :: rest else y :: sortedInsert x rest

/-- Insertion sort on rationals (for `statistics.median`). -/
def sortQ : List ℚ → List ℚ
  | [] => []
  | x :: rest => sortedInsert x (sortQ rest)

/-- `statistics.mean`: sum over length (only used on non-empty input). -/
def pyMean (l : List ℚ) : ℚ :=
  l.sum / l.length

/-- `statistics.median`: middle of the sorted list, or the average of the
two middle elements when the length is even. -/
def pyMedian (l : List ℚ) : ℚ :=
  let s := sortQ l
  let n := s.length
  if n % 2 = 1 then s.getD (n / 2) 0
  else (s.getD (n / 2 - 1) 0 + s.getD (n / 2) 0) / 2

/-- Python's `min` on a non-empty list of rationals. -/
def listMin (x : ℚ) (rest : List ℚ) : ℚ :=
  rest.foldl min x

/-- Python's `max` on a non-empty list of rationals. -/
def listMax (x : ℚ) (rest : List ℚ) : ℚ :=
  rest.foldl max x

/-- One `AgencyPostureSnapshot` entity as the aggregation and
latest-per-agency code reads it: exactly the keys those functions access
(a key absent from the stored dict reads as `0` via `.get(k, 0)`). -/
structure Snapshot where
  PartitionKey : String
  RowKey : String
  ComplianceScorePct : ℚ
  LabelCoveragePct : ℚ
  DlpIncidents30d : ℤ
  ExternalSharingCount : ℤ
  InsiderRiskTotal : ℤ
deriving DecidableEq, Repr, Inhabited

/-- Python's `min(snapshots, key=lambda s: s.get("ComplianceScorePct", 0))`
on the non-empty list `s :: rest`: the first snapshot attaining the
minimum score (later entries replace only on strictly smaller score). -/
def minByScore (s : Snapshot) (rest : List Snapshot) : Snapshot :=
  rest.foldl
    (fun best t => if t.ComplianceScorePct < best.ComplianceScorePct then t else best) s

/-- The aggregate dictionary `compute_statewide_aggregates` returns for
non-empty input. -/
structure StatewideAggregates where
  TotalAgencies : ℕ
  AvgComplianceScore : ℚ
  MedianComplianceScore : ℚ
  MinComplianceScore : ℚ
  MaxComplianceScore : ℚ
  LowestComplianceAgency : String
  AvgLabelCoverage : ℚ
  TotalDlpIncidents30d : ℤ
  TotalExternalSharing : ℤ
  TotalInsiderRiskAlerts : ℤ
  SnapshotDate : String
deriving DecidableEq, Repr

/-- `compute_statewide_aggregates` of `normalizer.py`.  The Python function
returns the empty dict `{}` for empty input and a fully populated dict
otherwise; that is modelled as `Option`: `none` is `{}`.  The
`datetime.now(...)` date stamp is the explicit parameter `today`. -/
def compute_statewide_aggregates (today : String) :
    List Snapshot → Option StatewideAggregates
  | [] => none
  | s :: rest =>
    let snaps := s :: rest
    let compliance_scores := snaps.map Snapshot.ComplianceScorePct
    let label_coverages := snaps.map Snapshot.LabelCoveragePct
    some
      { TotalAgencies := snaps.length
        AvgComplianceScore := round2 (pyMean compliance_scores)
        MedianComplianceScore := round2 (pyMedian compliance_scores)
        MinComplianceScore :=
          round2 (listMin s.ComplianceScorePct (rest.map Snapshot.ComplianceScorePct))
        MaxComplianceScore :=
          round2 (listMax s.ComplianceScorePct (rest.map Snapshot.ComplianceScorePct))
        LowestComplianceAgency := (minByScore s rest).PartitionKey
        AvgLabelCoverage := round2 (pyMean label_coverages)
        TotalDlpIncidents30d := (snaps.map Snapshot.DlpIncidents30d).sum
        TotalExternalSharing := (snaps.map Snapshot.ExternalSharingCount).sum
        TotalInsiderRiskAlerts := (snaps.map Snapshot.InsiderRiskTotal).sum
        SnapshotDate := today }

/-! ## Latest snapshot per agency (`src/functions/shared/table_client.py`) -/

/-- `pk in latest` / `latest[pk]` on the insertion-ordered dict, modelled as
an association list. -/
def lookupPK : List (String × Snapshot) → String → Option Snapshot
  | [], _ => none
  | (k, v) :: rest, pk => if k = pk then some v else lookupPK rest pk

/-- `latest[pk] = entity` when `pk` is already a key: replace in place. -/
def setPK : List (String × Snapshot) → String → Snapshot → List (String × Snapshot)
  | [], pk, s => [(pk, s)]
  | (k, v) :: rest, pk, s =>
      if k = pk then (k, s) :: rest else (k, v) :: setPK rest pk s

/-- One iteration of the grouping loop of `read_latest_snapshots_all_agencies`:
keep the entity iff its `RowKey` strictly exceeds the stored one (or the
agency is new; a new key is appended, as in an insertion-ordered dict). -/
def latestStep (acc : List (String × Snapshot)) (e : Snapshot) :
    List (String × Snapshot) :=
  match lookupPK acc e.PartitionKey with
  | none => acc ++ [(e.PartitionKey, e)]
  | some cur => if cur.RowKey < e.RowKey then setPK acc e.PartitionKey e else acc

/-- The grouping loop of `read_latest_snapshots_all_agencies` over the listed
entities. -/
def latestFold (acc : List (String × Snapshot)) : List Snapshot → List (String × Snapshot)
  | [] => acc
  | e :: rest => latestFold (latestStep acc e) rest

/-- The pure core of `read_latest_snapshots_all_agencies` of
`table_client.py`: its input is the list the table enumeration produced;
the result is `list(latest.values())`. -/
def read_latest_snapshots_all_agencies (all_entities : List Snapshot) : List Snapshot :=
  (latestFold [] all_entities).map Prod.snd

/-! ## Ingestion payload schema (`src/functions/shared/validation.py`) -/

/-- One entry of the payload's `assessments` array as
`write_assessment_summaries` reads it (the schema itself only checks that
`assessments` is an array). -/
structure Assessment where
  assessment_id : String
  regulation : String
  display_name : String
  compliance_score : ℚ
  passed_controls : ℤ
  failed_controls : ℤ
  total_controls : ℤ
deriving DecidableEq, Repr

/-- A submitted ingestion payload with the fields `PAYLOAD_SCHEMA` requires
(the typed embedding has no missing or extra keys, so only the value
constraints of the schema remain to check). -/
structure Payload where
  tenant_id : String
  agency_id : String
  timestamp : String
  label_coverage_pct : ℚ
  unlabeled_sensitive_count : ℤ
  dlp_incidents_30d : ℤ
  dlp_incidents_60d : ℤ
  dlp_incidents_90d : ℤ
  external_sharing_count : ℤ
  retention_policy_count : ℤ
  retention_coverage_pct : ℚ
  insider_risk_high : ℤ
  insider_risk_medium : ℤ
  insider_risk_low : ℤ
  insider_risk_total : ℤ
  label_taxonomy : List Label
  compliance_score_current : ℚ
  compliance_score_max : ℚ
  assessments : List Assessment
  improvement_actions_implemented : ℤ
  improvement_actions_planned : ℤ
  improvement_actions_not_started : ℤ
  collector_version : String
deriving DecidableEq, Repr

/-- A character of the regex class `[0-9a-fA-F-]`. -/
def tenantChar (c : Char) : Bool :=
  (Char.ofNat 48 ≤ c && c ≤ Char.ofNat 57)
    || (Char.ofNat 97 ≤ c && c ≤ Char.ofNat 102)
    || (Char.ofNat 65 ≤ c && c ≤ Char.ofNat 70)
    || c = Char.ofNat 45

/-- 36 characters of the class `[0-9a-fA-F-]`. -/
def tenantBody (cs : List Char) : Bool :=
  cs.length = 36 && cs.all tenantChar

/-- The schema's `"pattern": "^[0-9a-fA-F-]{36}$"` under Python `re.search`
semantics: the whole string matches, or the whole string minus one trailing
newline does (Python's `$` also matches just before a final newline). -/
def tenant_id_pattern (s : String) : Bool :=
  tenantBody s.toList
    || (s.toList.getLast? = some (Char.ofNat 10) && tenantBody s.toList.dropLast)

/-- The value constraints of `PAYLOAD_SCHEMA` on a typed payload: the
`tenant_id` pattern, `agency_id` length 1..64, percentages in `[0,100]`,
counts and scores non-negative. -/
def payload_schema_ok (p : Payload) : Bool :=
  tenant_id_pattern p.tenant_id
    && (1 ≤ p.agency_id.length && p.agency_id.length ≤ 64)
    && (0 ≤ p.label_coverage_pct && p.label_coverage_pct ≤ 100)
    && 0 ≤ p.unlabeled_sensitive_count
    && 0 ≤ p.dlp_incidents_30d
    && 0 ≤ p.dlp_incidents_60d
    && 0 ≤ p.dlp_incidents_90d
    && 0 ≤ p.external_sharing_count
    && 0 ≤ p.retention_policy_count
    && (0 ≤ p.retention_coverage_pct && p.retention_coverage_pct ≤ 100)
    && 0 ≤ p.insider_risk_high
    && 0 ≤ p.insider_risk_medium
    && 0 ≤ p.insider_risk_low
    && 0 ≤ p.insider_risk_total
    && 0 ≤ p.compliance_score_current
    && 0 ≤ p.compliance_score_max
    && 0 ≤ p.improvement_actions_implemented
    && 0 ≤ p.improvement_actions_planned
    && 0 ≤ p.improvement_actions_not_started

/-- The canonical `8-4-4-4-12` hex-with-dashes tenant-identifier format the
spec names: 36 characters, dashes exactly at positions 8, 13, 18 and 23,
hexadecimal digits everywhere else.  (Stated from the spec's words, to be
compared with the schema's actual pattern.) -/
def isCanonicalTenantId (s : String) : Bool :=
  let cs := s.toList
  cs.length = 36
    && (List.range 36).all fun i =>
        if i = 8 || i = 13 || i = 18 || i = 23 then cs.getD i ' ' = Char.ofNat 45
        else tenantChar (cs.getD i ' ') && cs.getD i ' ' ≠ Char.ofNat 45

/-! ## Posture entity construction (`src/functions/shared/table_client.py`) -/

/-- The `AgencyPostureSnapshot` entity `write_posture_snapshot` builds and
upserts. -/
structure PostureEntity where
  PartitionKey : String
  RowKey : String
  TenantId : String
  LabelCoveragePct : ℚ
  UnlabeledSensitiveCount : ℤ
  DlpIncidents30d : ℤ
  DlpIncidents60d : ℤ
  DlpIncidents90d : ℤ
  ExternalSharingCount : ℤ
  RetentionPolicyCount : ℤ
  RetentionCoveragePct : ℚ
  InsiderRiskHigh : ℤ
  InsiderRiskMedium : ℤ
  InsiderRiskLow : ℤ
  InsiderRiskTotal : ℤ
  ComplianceScoreCurrent : ℚ
  ComplianceScoreMax : ℚ
  ComplianceScorePct : ℚ
  ImprovementActionsImplemented : ℤ
  ImprovementActionsPlanned : ℤ
  ImprovementActionsNotStarted : ℤ
  CollectorVersion : String
deriving DecidableEq, Repr

/-- The entity construction of `write_posture_snapshot` of `table_client.py`
(the table upsert itself is the storage collaborator). -/
def write_posture_snapshot (payload : Payload) : PostureEntity :=
  { PartitionKey := payload.agency_id
    RowKey := payload.timestamp ++ "_" ++ payload.tenant_id
    TenantId := payload.tenant_id
    LabelCoveragePct := payload.label_coverage_pct
    UnlabeledSensitiveCount := payload.unlabeled_sensitive_count
    DlpIncidents30d := payload.dlp_incidents_30d
    DlpIncidents60d := payload.dlp_incidents_60d
    DlpIncidents90d := payload.dlp_incidents_90d
    ExternalSharingCount := payload.external_sharing_count
    RetentionPolicyCount := payload.retention_policy_count
    RetentionCoveragePct := payload.retention_coverage_pct
    InsiderRiskHigh := payload.insider_risk_high
    InsiderRiskMedium := payload.insider_risk_medium
    InsiderRiskLow := payload.insider_risk_low
    InsiderRiskTotal := payload.insider_risk_total
    ComplianceScoreCurrent := payload.compliance_score_current
    ComplianceScoreMax := payload.compliance_score_max
    ComplianceScorePct :=
      if payload.compliance_score_max > 0 then
        round2 (payload.compliance_score_current / payload.compliance_score_max * 100)
      else 0
    ImprovementActionsImplemented := payload.improvement_actions_implemented
    ImprovementActionsPlanned := payload.improvement_actions_planned
    ImprovementActionsNotStarted := payload.improvement_actions_not_started
    CollectorVersion := payload.collector_version }

/-! ## Concrete fixtures -/

/-- The `dept-of-education` snapshot of the test fixture
(`src/tests/conftest.py`, `sample_snapshots`). -/
def eduSnap : Snapshot :=
  { PartitionKey := "dept-of-education"
    RowKey := "2026-02-26T14:30:00_tenant-1"
    ComplianceScorePct := 72
    LabelCoveragePct := 72.5
    DlpIncidents30d := 15
    ExternalSharingCount := 234
    InsiderRiskTotal := 19 }

/-- The `dept-of-health` snapshot of the test fixture. -/
def healthSnap : Snapshot :=
  { PartitionKey := "dept-of-health"
    RowKey := "2026-02-26T14:30:00_tenant-2"
    ComplianceScorePct := 85
    LabelCoveragePct := 88
    DlpIncidents30d := 3
    ExternalSharingCount := 50
    InsiderRiskTotal := 2 }

/-- The `dept-of-corrections` snapshot of the test fixture (the lowest
compliance score, 38.2). -/
def corrSnap : Snapshot :=
  { PartitionKey := "dept-of-corrections"
    RowKey := "2026-02-26T14:30:00_tenant-3"
    ComplianceScorePct := 38.2
    LabelCoveragePct := 34
    DlpIncidents30d := 42
    ExternalSharingCount := 567
    InsiderRiskTotal := 31 }

/-- A fully valid payload except that its `tenant_id` is 36 hex digits with
no dashes — not the canonical `8-4-4-4-12` layout. -/
def hexOnlyPayload : Payload :=
  { tenant_id := "000000000000000000000000000000000000"
    agency_id := "dept-of-education"
    timestamp := "2026-02-26T14:30:00"
    label_coverage_pct := 72
    unlabeled_sensitive_count := 150
    dlp_incidents_30d := 15
    dlp_incidents_60d := 30
    dlp_incidents_90d := 45
    external_sharing_count := 234
    retention_policy_count := 12
    retention_coverage_pct := 65
    insider_risk_high := 2
    insider_risk_medium := 5
    insider_risk_low := 12
    insider_risk_total := 19
    label_taxonomy := []
    compliance_score_current := 450
    compliance_score_max := 600
    assessments := []
    improvement_actions_implemented := 20
    improvement_actions_planned := 15
    improvement_actions_not_started := 8
    collector_version := "1.0.0" }

/-- `hexOnlyPayload` with a `tenant_id` that does not even match the
schema's 36-character pattern. -/
def malformedTenantPayload : Payload :=
  { hexOnlyPayload with tenant_id := "not-a-guid" }

/-- `hexOnlyPayload` with `compliance_score_current = 1` and
`compliance_score_max = 3`, whose exact percentage 100/3 is not
representable in two decimal places. -/
def thirdScorePayload : Payload :=
  { hexOnlyPayload with compliance_score_current := 1, compliance_score_max := 3 }

/-! ## Substring-matching correctness -/

/-- `String.toList` distributes over append. -/
theorem toList_append (s t : String) : (s ++ t).toList = s.toList ++ t.toList := rfl

/-- `isPrefixChars` decides the prefix relation. -/
theorem isPrefixChars_iff (n : List Char) :
    ∀ h, isPrefixChars n h = true ↔ ∃ t, h = n ++ t := by
  induction n with
  | nil => intro h; simp [isPrefixChars]
  | cons a n ih =>
    intro h
    cases h with
    | nil => simp [isPrefixChars]
    | cons b t =>
      simp only [isPrefixChars, Bool.and_eq_true, decide_eq_true_eq, ih,
        List.cons_append, List.cons.injEq]
      constructor
      · rintro ⟨rfl, u, rfl⟩
        exact ⟨u, rfl, rfl⟩
      · rintro ⟨u, rfl, rfl⟩
        exact ⟨rfl, u, rfl⟩

/-- `infixChars` decides the contiguous-occurrence relation. -/
theorem infixChars_iff (n : List Char) :
    ∀ h, infixChars n h = true ↔ ∃ p t, h = p ++ n ++ t := by
  intro h
  induction h with
  | nil =>
    simp only [infixChars, List.isEmpty_iff]
    constructor
    · rintro rfl
      exact ⟨[], [], rfl⟩
    · rintro ⟨p, t, heq⟩
      rcases List.append_eq_nil.mp heq.symm with ⟨hpn, rfl⟩
      exact (List.append_eq_nil.mp hpn).2
  | cons c h ih =>
    simp only [infixChars, Bool.or_eq_true, isPrefixChars_iff, ih]
    constructor
    · rintro (⟨t, heq⟩ | ⟨p, t, rfl⟩)
      · exact ⟨[], t, by simpa using heq⟩
      · exact ⟨c :: p, t, rfl⟩
    · rintro ⟨p, t, heq⟩
      cases p with
      | nil =>
        left
        exact ⟨t, by simpa using heq⟩
      | cons x p =>
        rcases List.cons.injEq .. ▸ heq with ⟨rfl, rfl⟩
        exact Or.inr ⟨p, t, rfl⟩

/-- The claim's notion of a keyword occurring as a substring of a string. -/
def keywordOccurs (kw s : String) : Prop :=
  ∃ pre post : String, s = pre ++ kw ++ post

/-- `strContains` (the model of Python's `in`) decides substring
occurrence. -/
theorem strContains_iff (hay needle : String) :
    strContains hay needle = true ↔ keywordOccurs needle hay := by
  unfold strContains keywordOccurs
  rw [infixChars_iff]
  constructor
  · rintro ⟨p, t, heq⟩
    refine ⟨p.asString, t.asString, ?_⟩
    rw [← String.toList_inj, toList_append, toList_append,
      List.toList_asString, List.toList_asString]
    exact heq
  · rintro ⟨pre, post, rfl⟩
    exact ⟨pre.toList, post.toList, by rw [toList_append, toList_append]⟩

instance (kw s : String) : Decidable (keywordOccurs kw s) :=
  decidable_of_iff (strContains s kw = true) (strContains_iff s kw)

/-- Some keyword of `tier` occurs as a substring of `combined`. -/
def tierHit (tier combined : String) : Prop :=
  ∃ kw ∈ TIER_KEYWORDS tier, keywordOccurs kw combined

instance (tier combined : String) : Decidable (tierHit tier combined) :=
  inferInstanceAs (Decidable (∃ kw ∈ TIER_KEYWORDS tier, keywordOccurs kw combined))

/-- The tier-selection rule as the claim words it: test the space-joined
lowercase concatenation of parent and label name against the four keyword
sets strictly in the order Restricted > Confidential > Internal > Public;
return the first tier with a substring hit, else `"Internal"`.
(Stated from the claim, to be compared with `normalize_label_tier`.) -/
def tierSpecC1 (label_name parent_name : String) : String :=
  if tierHit "Restricted" (pyLower (parent_name ++ " " ++ label_name)) then "Restricted"
  else if tierHit "Confidential" (pyLower (parent_name ++ " " ++ label_name)) then "Confidential"
  else if tierHit "Internal" (pyLower (parent_name ++ " " ++ label_name)) then "Internal"
  else if tierHit "Public" (pyLower (parent_name ++ " " ++ label_name)) then "Public"
  else "Internal"

/-! ## Latest-per-agency invariants -/

/-- `lookupPK` misses exactly when no entry carries the key. -/
theorem lookupPK_none_iff (acc : List (String × Snapshot)) (pk : String) :
    lookupPK acc pk = none ↔ ∀ q ∈ acc, q.1 ≠ pk := by
  induction acc with
  | nil => simp [lookupPK]
  | cons a acc ih =>
    obtain ⟨k, v⟩ := a
    by_cases hk : k = pk
    · subst hk
      simp [lookupPK, ih]
    · simp only [lookupPK, if_neg hk, ih, List.mem_cons]
      constructor
      · rintro h q (rfl | hq)
        · exact hk
        · exact h q hq
      · intro h q hq
        exact h q (Or.inr hq)

/-- A `lookupPK` hit is a member. -/
theorem lookupPK_mem (acc : List (String × Snapshot)) (pk : String) (v : Snapshot)
    (h : lookupPK acc pk = some v) : (pk, v) ∈ acc := by
  induction acc with
  | nil => simp [lookupPK] at h
  | cons a acc ih =>
    obtain ⟨k, w⟩ := a
    by_cases hk : k = pk
    · subst hk
      rw [lookupPK, if_pos rfl] at h
      injection h with h
      subst h
      exact List.mem_cons_self _ _
    · rw [lookupPK, if_neg hk] at h
      exact List.mem_cons_of_mem _ (ih h)

/-- With duplicate-free keys, `lookupPK` finds every member at its key. -/
theorem lookupPK_of_mem {acc : List (String × Snapshot)} {q : String × Snapshot}
    (hnd : (acc.map Prod.fst).Nodup) (hq : q ∈ acc) : lookupPK acc q.1 = some q.2 := by
  induction acc with
  | nil => simp at hq
  | cons a acc ih =>
    obtain ⟨k, v⟩ := a
    rw [List.map_cons, List.nodup_cons] at hnd
    rcases List.mem_cons.mp hq with rfl | hq
    · rw [lookupPK, if_pos rfl]
    · have hne : k ≠ q.1 := by
        intro hk
        exact hnd.1 (hk ▸ List.mem_map.mpr ⟨q, hq, rfl⟩)
      rw [lookupPK, if_neg hne]
      exact ih hnd.2 hq

/-- `setPK` keeps every entry at a different key. -/
theorem setPK_mem_of_ne {acc : List (String × Snapshot)} {q : String × Snapshot}
    (pk : String) (s : Snapshot) (hq : q ∈ acc) (hne : q.1 ≠ pk) :
    q ∈ setPK acc pk s := by
  induction acc with
  | nil => simp at hq
  | cons a acc ih =>
    obtain ⟨k, v⟩ := a
    rcases List.mem_cons.mp hq with rfl | hq
    · rw [setPK, if_neg hne]
      exact List.mem_cons_self _ _
    · by_cases hk : k = pk
      · rw [setPK, if_pos hk]
        exact List.mem_cons_of_mem _ hq
      · rw [setPK, if_neg hk]
        exact List.mem_cons_of_mem _ (ih hq)

/-- When the key is present, `setPK` contains the new binding. -/
theorem setPK_self_mem {acc : List (String × Snapshot)} (pk : String) (s : Snapshot)
    (hk : pk ∈ acc.map Prod.fst) : (pk, s) ∈ setPK acc pk s := by
  induction acc with
  | nil => simp at hk
  | cons a acc ih =>
    obtain ⟨k, v⟩ := a
    by_cases hkpk : k = pk
    · subst hkpk
      rw [setPK, if_pos rfl]
      exact List.mem_cons_self _ _
    · rw [setPK, if_neg hkpk]
      rw [List.map_cons, List.mem_cons] at hk
      rcases hk with hk | hk
      · exact absurd hk.symm hkpk
      · exact List.mem_cons_of_mem _ (ih hk)

/-- With duplicate-free keys, a member of `setPK acc pk s` is the new
binding or an untouched entry at a different key. -/
theorem mem_setPK {acc : List (String × Snapshot)} {q : String × Snapshot}
    {pk : String} {s : Snapshot} (hnd : (acc.map Prod.fst).Nodup)
    (hq : q ∈ setPK acc pk s) : q = (pk, s) ∨ (q ∈ acc ∧ q.1 ≠ pk) := by
  induction acc with
  | nil =>
    rw [setPK] at hq
    exact Or.inl (List.mem_singleton.mp hq)
  | cons a acc ih =>
    obtain ⟨k, v⟩ := a
    rw [List.map_cons, List.nodup_cons] at hnd
    by_cases hk : k = pk
    · subst hk
      rw [setPK, if_pos rfl] at hq
      rcases List.mem_cons.mp hq with rfl | hq
      · exact Or.inl rfl
      · refine Or.inr ⟨List.mem_cons_of_mem _ hq, ?_⟩
        intro hqk
        exact hnd.1 (hqk ▸ List.mem_map.mpr ⟨q, hq, rfl⟩)
    · rw [setPK, if_neg hk] at hq
      rcases List.mem_cons.mp hq with rfl | hq
      · exact Or.inr ⟨List.mem_cons_self _ _, hk⟩
      · rcases ih hnd.2 hq with h | ⟨hqa, hqne⟩
        · exact Or.inl h
        · exact Or.inr ⟨List.mem_cons_of_mem _ hqa, hqne⟩

/-- When the key is present, `setPK` leaves the key list unchanged. -/
theorem setPK_map_fst (acc : List (String × Snapshot)) (pk : String) (s : Snapshot)
    (hk : pk ∈ acc.map Prod.fst) :
    (setPK acc pk s).map Prod.fst = acc.map Prod.fst := by
  induction acc with
  | nil => simp at hk
  | cons a acc ih =>
    obtain ⟨k, v⟩ := a
    by_cases hkpk : k = pk
    · subst hkpk
      rw [setPK, if_pos rfl, List.map_cons, List.map_cons]
    · rw [setPK, if_neg hkpk, List.map_cons, List.map_cons]
      rw [List.map_cons, List.mem_cons] at hk
      rcases hk with hk | hk
      · exact absurd hk.symm hkpk
      · rw [ih hk]

/-- The invariant of the grouping loop: after processing `seen`, the
accumulator has duplicate-free keys, each entry is a seen snapshot of its
own agency with `RowKey` maximal among the seen snapshots of that agency,
and every seen agency has an entry. -/
def GoodAcc (seen : List Snapshot) (acc : List (String × Snapshot)) : Prop :=
  (acc.map Prod.fst).Nodup
    ∧ (∀ q ∈ acc, q.2.PartitionKey = q.1 ∧ q.2 ∈ seen
        ∧ ∀ t ∈ seen, t.PartitionKey = q.1 → t.RowKey ≤ q.2.RowKey)
    ∧ (∀ t ∈ seen, ∃ q ∈ acc, q.1 = t.PartitionKey)

/-- One loop iteration preserves the invariant. -/
theorem goodAcc_step {seen : List Snapshot} {acc : List (String × Snapshot)}
    (h : GoodAcc seen acc) (e : Snapshot) : GoodAcc (seen ++ [e]) (latestStep acc e) := by
  obtain ⟨hnd, hmem, hcov⟩ := h
  unfold latestStep
  cases hlk : lookupPK acc e.PartitionKey with
  | none =>
    show GoodAcc (seen ++ [e]) (acc ++ [(e.PartitionKey, e)])
    have hnotin : ∀ q ∈ acc, q.1 ≠ e.PartitionKey := (lookupPK_none_iff _ _).mp hlk
    have hpkout : e.PartitionKey ∉ acc.map Prod.fst := by
      rw [List.mem_map]
      rintro ⟨q, hq, hfst⟩
      exact hnotin q hq hfst
    refine ⟨?_, ?_, ?_⟩
    · rw [List.map_append, List.map_cons, List.map_nil]
      exact List.Nodup.append hnd (List.nodup_singleton _)
        (by simpa [List.disjoint_singleton] using hpkout)
    · intro q hq
      rcases List.mem_append.mp hq with hqa | hqs
      · obtain ⟨hpk, hseen, hmax⟩ := hmem q hqa
        refine ⟨hpk, List.mem_append.mpr (Or.inl hseen), ?_⟩
        intro t ht hkey
        rcases List.mem_append.mp ht with hta | hts
        · exact hmax t hta hkey
        · have hte : t = e := List.mem_singleton.mp hts
          rw [hte] at hkey
          exact absurd hkey.symm (hnotin q hqa)
      · have hqe : q = (e.PartitionKey, e) := List.mem_singleton.mp hqs
        rw [hqe]
        refine ⟨rfl, List.mem_append.mpr (Or.inr (List.mem_singleton.mpr rfl)), ?_⟩
        intro t ht hkey
        rcases List.mem_append.mp ht with hta | hts
        · obtain ⟨q', hq', hkq⟩ := hcov t hta
          exact absurd (hkq.trans hkey) (hnotin q' hq')
        · have hte : t = e := List.mem_singleton.mp hts
          rw [hte]
    · intro t ht
      rcases List.mem_append.mp ht with hta | hts
      · obtain ⟨q, hq, hkq⟩ := hcov t hta
        exact ⟨q, List.mem_append.mpr (Or.inl hq), hkq⟩
      · have hte : t = e := List.mem_singleton.mp hts
        exact ⟨(e.PartitionKey, e),
          List.mem_append.mpr (Or.inr (List.mem_singleton.mpr rfl)), by rw [hte]⟩
  | some cur =>
    show GoodAcc (seen ++ [e])
      (if cur.RowKey < e.RowKey then setPK acc e.PartitionKey e else acc)
    have hcurmem : (e.PartitionKey, cur) ∈ acc := lookupPK_mem _ _ _ hlk
    have hpkin : e.PartitionKey ∈ acc.map Prod.fst :=
      List.mem_map.mpr ⟨_, hcurmem, rfl⟩
    by_cases hlt : cur.RowKey < e.RowKey
    · rw [if_pos hlt]
      refine ⟨(setPK_map_fst _ _ _ hpkin).symm ▸ hnd, ?_, ?_⟩
      · intro q hq
        rcases mem_setPK hnd hq with hqe | ⟨hqa, hqne⟩
        · rw [hqe]
          refine ⟨rfl, List.mem_append.mpr (Or.inr (List.mem_singleton.mpr rfl)), ?_⟩
          intro t ht hkey
          rcases List.mem_append.mp ht with hta | hts
          · obtain ⟨_, _, hmax'⟩ := hmem _ hcurmem
            exact le_trans (hmax' t hta hkey) (le_of_lt hlt)
          · have hte : t = e := List.mem_singleton.mp hts
            rw [hte]
        · obtain ⟨hpk, hseen, hmax⟩ := hmem q hqa
          refine ⟨hpk, List.mem_append.mpr (Or.inl hseen), ?_⟩
          intro t ht hkey
          rcases List.mem_append.mp ht with hta | hts
          · exact hmax t hta hkey
          · have hte : t = e := List.mem_singleton.mp hts
            rw [hte] at hkey
            exact absurd hkey.symm hqne
      · intro t ht
        rcases List.mem_append.mp ht with hta | hts
        · obtain ⟨q, hq, hkq⟩ := hcov t hta
          by_cases hqpk : q.1 = e.PartitionKey
          · exact ⟨(e.PartitionKey, e), setPK_self_mem _ _ hpkin, hqpk ▸ hkq⟩
          · exact ⟨q, setPK_mem_of_ne _ _ hq hqpk, hkq⟩
        · have hte : t = e := List.mem_singleton.mp hts
          exact ⟨(e.PartitionKey, e), setPK_self_mem _ _ hpkin, by rw [hte]⟩
    · rw [if_neg hlt]
      have hle : e.RowKey ≤ cur.RowKey := le_of_not_lt hlt
      refine ⟨hnd, ?_, ?_⟩
      · intro q hq
        obtain ⟨hpk, hseen, hmax⟩ := hmem q hq
        refine ⟨hpk, List.mem_append.mpr (Or.inl hseen), ?_⟩
        intro t ht hkey
        rcases List.mem_append.mp ht with hta | hts
        · exact hmax t hta hkey
        · have hte : t = e := List.mem_singleton.mp hts
          rw [hte] at hkey ⊢
          have hq2 : lookupPK acc q.1 = some q.2 := lookupPK_of_mem hnd hq
          rw [← hkey, hlk] at hq2
          injection hq2 with hq2
          rw [← hq2]
          exact hle
      · intro t ht
        rcases List.mem_append.mp ht with hta | hts
        · exact hcov t hta
        · have hte : t = e := List.mem_singleton.mp hts
          exact ⟨(e.PartitionKey, cur), hcurmem, by rw [hte]⟩

/-- The whole loop preserves the invariant. -/
theorem goodAcc_fold :
    ∀ (l : List Snapshot) (seen : List Snapshot) (acc : List (String × Snapshot)),
      GoodAcc seen acc → GoodAcc (seen ++ l) (latestFold acc l) := by
  intro l
  induction l with
  | nil =>
    intro seen acc h
    simpa [latestFold] using h
  | cons e rest ih =>
    intro seen acc h
    rw [latestFold]
    have := ih (seen ++ [e]) _ (goodAcc_step h e)
    simpa [List.append_assoc] using this

/-- The grouping of `read_latest_snapshots_all_agencies` satisfies the loop
invariant with everything processed. -/
theorem goodAcc_read (entities : List Snapshot) :
    GoodAcc entities (latestFold [] entities) := by
  have h0 : GoodAcc [] [] := by
    refine ⟨List.nodup_nil, ?_, ?_⟩
    · intro q hq
      simp at hq
    · intro t ht
      simp at ht
  simpa using goodAcc_fold entities [] [] h0

/-- Processing one more entity is one more `latestStep`. -/
theorem latestFold_append (acc : List (String × Snapshot)) (l : List Snapshot)
    (e : Snapshot) : latestFold acc (l ++ [e]) = latestStep (latestFold acc l) e := by
  induction l generalizing acc with
  | nil => rfl
  | cons x l ih => rw [List.cons_append, latestFold, latestFold, ih]

/-- A snapshot of agency `"agency-a"` used in the tie-break analysis. -/
def tieFirst : Snapshot :=
  { PartitionKey := "agency-a"
    RowKey := "2026-02-26T14:30:00_tenant-1"
    ComplianceScorePct := 72
    LabelCoveragePct := 70
    DlpIncidents30d := 1
    ExternalSharingCount := 0
    InsiderRiskTotal := 0 }

/-- A distinct snapshot with the same `PartitionKey` and the same `RowKey`
as `tieFirst`. -/
def tieSecond : Snapshot :=
  { tieFirst with DlpIncidents30d := 2 }

/-! ## Rounding lemmas -/

/-- `pyRound` is within 1/2 of its argument. -/
theorem pyRound_err (q : ℚ) : |(pyRound q : ℚ) - q| ≤ 1 / 2 := by
  have h0 : (Int.floor q : ℚ) ≤ q := Int.floor_le q
  have h1 : q < Int.floor q + 1 := Int.lt_floor_add_one q
  unfold pyRound
  split_ifs with ha hb hc <;> rw [abs_le] <;> constructor <;> push_cast <;> linarith

/-- `round2` is within 1/200 (half of the last kept decimal) of its
argument. -/
theorem round2_err (q : ℚ) : |round2 q - q| ≤ 1 / 200 := by
  have h := pyRound_err (q * 100)
  unfold round2
  have heq : (pyRound (q * 100) : ℚ) / 100 - q = ((pyRound (q * 100) : ℚ) - q * 100) / 100 := by
    ring
  rw [heq, abs_div]
  have h100 : |(100 : ℚ)| = 100 := by norm_num
  rw [h100]
  rw [div_le_div_iff₀ (by norm_num) (by norm_num)]
  linarith [h]

/-- Evaluation of `round2` when the fractional part is below one half. -/
theorem round2_eq_of_lt (q : ℚ) (n : ℤ) (hf : Int.floor (q * 100) = n)
    (hl : q * 100 - (n : ℚ) < 1 / 2) : round2 q = (n : ℚ) / 100 := by
  unfold round2 pyRound
  rw [hf, if_pos hl]

/-! ## Claim theorems -/

/-- C1: for every pair of strings, `normalize_label_tier` returns exactly
what the spec describes: it tests the space-joined lowercase concatenation
of parent name and label name against the four keyword sets strictly in the
order Restricted > Confidential > Internal > Public, returns the first tier
one of whose keywords occurs as a substring, and returns `"Internal"` when
no keyword of any tier occurs. -/
theorem normalize_label_tier_matches_spec (label_name parent_name : String) :
    normalize_label_tier label_name parent_name = tierSpecC1 label_name parent_name := by
  have main : ∀ c : String,
      (match List.find? (fun tier => (TIER_KEYWORDS tier).any fun kw => strContains c kw)
          ["Restricted", "Confidential", "Internal", "Public"] with
        | some tier => tier
        | none => "Internal")
        = (if tierHit "Restricted" c then "Restricted"
           else if tierHit "Confidential" c then "Confidential"
           else if tierHit "Internal" c then "Internal"
           else if tierHit "Public" c then "Public"
           else "Internal") := by
    intro c
    have key : ∀ t, ((TIER_KEYWORDS t).any fun kw => strContains c kw) = true
        ↔ tierHit t c := by
      intro t
      simp [List.any_eq_true, tierHit, strContains_iff]
    by_cases hR : tierHit "Restricted" c
    · rw [@List.find?_cons_of_pos String _ "Restricted" _ ((key _).mpr hR), if_pos hR]
    · rw [@List.find?_cons_of_neg String _ "Restricted" _ (fun hx => hR ((key _).mp hx)),
        if_neg hR]
      by_cases hC : tierHit "Confidential" c
      · rw [@List.find?_cons_of_pos String _ "Confidential" _ ((key _).mpr hC), if_pos hC]
      · rw [@List.find?_cons_of_neg String _ "Confidential" _ (fun hx => hC ((key _).mp hx)),
          if_neg hC]
        by_cases hI : tierHit "Internal" c
        · rw [@List.find?_cons_of_pos String _ "Internal" _ ((key _).mpr hI), if_pos hI]
        · rw [@List.find?_cons_of_neg String _ "Internal" _ (fun hx => hI ((key _).mp hx)),
            if_neg hI]
          by_cases hP : tierHit "Public" c
          · rw [@List.find?_cons_of_pos String _ "Public" _ ((key _).mpr hP), if_pos hP]
          · rw [@List.find?_cons_of_neg String _ "Public" _ (fun hx => hP ((key _).mp hx)),
              if_neg hP]
            rfl
  exact main (pyLower (parent_name ++ " " ++ label_name))

/-- C3: the grouping step of `read_latest_snapshots_all_agencies` returns
exactly one snapshot per distinct `PartitionKey` of the input (the output
agencies are duplicate-free and are exactly the input agencies), each
returned snapshot is an input snapshot of its agency whose `RowKey` is
lexicographically maximal within that agency's group, and empty input gives
the empty list. -/
theorem read_latest_one_per_agency (entities : List Snapshot) :
    ((read_latest_snapshots_all_agencies entities).map Snapshot.PartitionKey).Nodup
      ∧ (∀ s ∈ read_latest_snapshots_all_agencies entities,
          s ∈ entities
            ∧ ∀ t ∈ entities, t.PartitionKey = s.PartitionKey → t.RowKey ≤ s.RowKey)
      ∧ (∀ t ∈ entities, ∃ s ∈ read_latest_snapshots_all_agencies entities,
          s.PartitionKey = t.PartitionKey)
      ∧ read_latest_snapshots_all_agencies [] = [] := by
  obtain ⟨hnd, hmem, hcov⟩ := goodAcc_read entities
  refine ⟨?_, ?_, ?_, rfl⟩
  · unfold read_latest_snapshots_all_agencies
    rw [List.map_map]
    have hfst : (latestFold [] entities).map (Snapshot.PartitionKey ∘ Prod.snd)
        = (latestFold [] entities).map Prod.fst :=
      List.map_congr_left (fun q hq => (hmem q hq).1)
    rw [hfst]
    exact hnd
  · intro s hs
    unfold read_latest_snapshots_all_agencies at hs
    obtain ⟨q, hq, rfl⟩ := List.mem_map.mp hs
    obtain ⟨hpk, hseen, hmax⟩ := hmem q hq
    refine ⟨hseen, ?_⟩
    intro t ht hkey
    exact hmax t ht (hkey.trans hpk)
  · intro t ht
    obtain ⟨q, hq, hkq⟩ := hcov t ht
    obtain ⟨hpk, _, _⟩ := hmem q hq
    exact ⟨q.2, List.mem_map.mpr ⟨q, hq, rfl⟩, hpk.trans hkq⟩

/-- C4 counterexample: two snapshots of the same agency with identical
`RowKey`s; the grouping keeps the entry processed first (the comparison is
strict `>`), so the later-processed entry does not win. -/
theorem read_latest_tie_keeps_first_entry :
    read_latest_snapshots_all_agencies [tieFirst, tieSecond] = [tieFirst]
      ∧ tieFirst ≠ tieSecond := by
  constructor
  · simp [read_latest_snapshots_all_agencies, latestFold, latestStep, lookupPK,
      tieFirst, tieSecond, lt_self_iff_false]
  · decide

/-- C4 amended: on a tie the earlier-processed entry wins — appending an
entity whose `PartitionKey` and `RowKey` equal those of an already selected
snapshot leaves the selection unchanged (the stored entry is replaced only
on a strictly greater `RowKey`). -/
theorem read_latest_tie_no_replacement (entities : List Snapshot) (e : Snapshot)
    (h : ∃ s ∈ read_latest_snapshots_all_agencies entities,
        s.PartitionKey = e.PartitionKey ∧ s.RowKey = e.RowKey) :
    read_latest_snapshots_all_agencies (entities ++ [e])
      = read_latest_snapshots_all_agencies entities := by
  obtain ⟨s, hs, hspk, hsrk⟩ := h
  obtain ⟨hnd, hmem, hcov⟩ := goodAcc_read entities
  unfold read_latest_snapshots_all_agencies at hs ⊢
  rw [latestFold_append]
  obtain ⟨q, hq, rfl⟩ := List.mem_map.mp hs
  have hlk : lookupPK (latestFold [] entities) q.1 = some q.2 := lookupPK_of_mem hnd hq
  have hq1 : q.1 = e.PartitionKey := ((hmem q hq).1).symm.trans hspk
  unfold latestStep
  rw [← hq1, hlk]
  show (if q.2.RowKey < e.RowKey then setPK (latestFold [] entities) q.1 e
      else latestFold [] entities).map Prod.snd
    = (latestFold [] entities).map Prod.snd
  rw [hsrk, if_neg (lt_irrefl _)]

/-- C4 witness: appending the tying snapshot `tieSecond` after `tieFirst`
leaves the selection unchanged. -/
theorem read_latest_tie_no_replacement_check :
    read_latest_snapshots_all_agencies ([tieFirst] ++ [tieSecond])
      = read_latest_snapshots_all_agencies [tieFirst] :=
  read_latest_tie_no_replacement [tieFirst] tieSecond ⟨tieFirst, by decide, rfl, rfl⟩

/-- C6: `normalize_labels` preserves order and count 1:1 — position `i` of
the output corresponds to position `i` of the input — leaves every entry
whose `normalized_tier` is non-empty untouched, attaches to every other
entry the tier the single-label rule computes from its own `label_name` and
`parent_label_name`, and is the identity on taxonomies in which every entry
already has a non-empty tier. -/
theorem normalize_labels_pointwise (t : List Label) :
    (normalize_labels t).length = t.length
      ∧ (∀ i d, (t.getD i d).normalized_tier ≠ "" →
          (normalize_labels t).getD i d = t.getD i d)
      ∧ (∀ i d, i < t.length → (t.getD i d).normalized_tier = "" →
          (normalize_labels t).getD i d =
            { t.getD i d with
              normalized_tier :=
                normalize_label_tier (t.getD i d).label_name
                  (t.getD i d).parent_label_name })
      ∧ ((∀ l ∈ t, l.normalized_tier ≠ "") → normalize_labels t = t) := by
  refine ⟨by simp [normalize_labels], ?_, ?_, ?_⟩
  · intro i d h
    rcases Nat.lt_or_ge i t.length with hi | hi
    · simp only [normalize_labels, List.getD_eq_getElem?_getD, List.getElem?_map,
        List.getElem?_eq_getElem hi, Option.map_some', Option.getD_some] at h ⊢
      rw [if_neg h]
    · simp only [normalize_labels, List.getD_eq_getElem?_getD, List.getElem?_map,
        List.getElem?_eq_none hi, Option.map_none', Option.getD_none]
  · intro i d hi h
    simp only [normalize_labels, List.getD_eq_getElem?_getD, List.getElem?_map,
      List.getElem?_eq_getElem hi, Option.map_some', Option.getD_some] at h ⊢
    rw [if_pos h]
  · intro h
    unfold normalize_labels
    calc t.map (fun label =>
            if label.normalized_tier = "" then
              { label with
                normalized_tier :=
                  normalize_label_tier label.label_name label.parent_label_name }
            else label)
        = t.map id := List.map_congr_left (fun a ha => if_neg (h a ha))
      _ = t := List.map_id t

/-- C8 counterexample: a payload whose `tenant_id` is 36 hex digits with no
dashes — not the `8-4-4-4-12` format — nevertheless passes every constraint
of `PAYLOAD_SCHEMA`: the pattern `^[0-9a-fA-F-]{36}$` does not fix the dash
positions. -/
theorem payload_schema_accepts_dashless_tenant :
    payload_schema_ok hexOnlyPayload = true
      ∧ isCanonicalTenantId hexOnlyPayload.tenant_id = false := by
  refine ⟨by decide, by decide⟩

/-- C8 amended: schema validation rejects exactly the tenant identifiers
that fail the 36-character hex-or-dash pattern: whenever `tenant_id` does
not match `^[0-9a-fA-F-]{36}$`, the payload fails schema validation. -/
theorem payload_schema_needs_tenant_id_shape (p : Payload)
    (h : tenant_id_pattern p.tenant_id = false) : payload_schema_ok p = false := by
  unfold payload_schema_ok
  rw [h]
  simp

/-- C8 witness: the theorem applied to the concrete payload whose
`tenant_id` is `"not-a-guid"`. -/
theorem payload_schema_needs_tenant_id_shape_check :
    payload_schema_ok malformedTenantPayload = false :=
  payload_schema_needs_tenant_id_shape malformedTenantPayload (by decide)

/-- C9 counterexample: for the payload with `compliance_score_current = 1`
and `compliance_score_max = 3`, the stored `ComplianceScorePct` is the
two-decimal rounding 33.33, not the exact `current / max * 100 = 100/3`. -/
theorem posture_pct_not_exact_ratio :
    (write_posture_snapshot thirdScorePayload).ComplianceScorePct
      ≠ thirdScorePayload.compliance_score_current
          / thirdScorePayload.compliance_score_max * 100 := by
  have hval : round2 ((1 : ℚ) / 3 * 100) = (3333 : ℤ) / 100 := by
    refine round2_eq_of_lt _ 3333 ?_ ?_
    · norm_num [Int.floor_eq_iff]
    · norm_num
  show (if (3 : ℚ) > 0 then round2 ((1 : ℚ) / 3 * 100) else 0) ≠ (1 : ℚ) / 3 * 100
  rw [if_pos (by norm_num), hval]
  norm_num

/-- C9 amended: the stored `ComplianceScorePct` is always derived from the
two submitted score fields — it equals the two-decimal rounding of
`current / max * 100` when `max > 0` (hence is within 0.005 of the exact
ratio) and equals 0 when `max` is 0 or negative; the payload carries no
percentage field it could be copied from. -/
theorem posture_pct_derived (p : Payload) :
    ((write_posture_snapshot p).ComplianceScorePct =
        if 0 < p.compliance_score_max then
          round2 (p.compliance_score_current / p.compliance_score_max * 100)
        else 0)
      ∧ (0 < p.compliance_score_max →
          |(write_posture_snapshot p).ComplianceScorePct
              - p.compliance_score_current / p.compliance_score_max * 100| ≤ 1 / 200) := by
  constructor
  · rfl
  · intro h
    show |(if 0 < p.compliance_score_max then
            round2 (p.compliance_score_current / p.compliance_score_max * 100)
          else 0)
        - p.compliance_score_current / p.compliance_score_max * 100| ≤ 1 / 200
    rw [if_pos h]
    exact round2_err _

/-- C2: on the three-snapshot fixture with compliance scores
{72.0, 85.0, 38.2}, DLP counts {15, 3, 42}, external-sharing counts
{234, 50, 567} and insider-risk totals {19, 2, 31},
`compute_statewide_aggregates` yields `TotalAgencies = 3`,
`AvgComplianceScore` within 0.1 of 65.07, `TotalDlpIncidents30d = 60`,
`TotalExternalSharing = 851`, `TotalInsiderRiskAlerts = 52`, and
`LowestComplianceAgency` equal to the `PartitionKey` of the snapshot whose
score is 38.2. -/
theorem compute_statewide_aggregates_fixture :
    ∃ a, compute_statewide_aggregates "2026-02-26" [eduSnap, healthSnap, corrSnap] = some a
      ∧ a.TotalAgencies = 3
      ∧ |a.AvgComplianceScore - 65.07| ≤ 0.1
      ∧ a.TotalDlpIncidents30d = 60
      ∧ a.TotalExternalSharing = 851
      ∧ a.TotalInsiderRiskAlerts = 52
      ∧ corrSnap.ComplianceScorePct = 38.2
      ∧ a.LowestComplianceAgency = corrSnap.PartitionKey := by
  have hmean :
      pyMean (List.map Snapshot.ComplianceScorePct [eduSnap, healthSnap, corrSnap])
        = 976 / 15 := by
    simp [pyMean, eduSnap, healthSnap, corrSnap]
    norm_num
  have hfloor : Int.floor ((976 : ℚ) / 15 * 100) = 6506 := by
    norm_num [Int.floor_eq_iff]
  have hround : pyRound ((976 : ℚ) / 15 * 100) = 6507 := by
    unfold pyRound
    rw [hfloor]
    norm_num
  have havg :
      round2 (pyMean (List.map Snapshot.ComplianceScorePct [eduSnap, healthSnap, corrSnap]))
        = 6507 / 100 := by
    rw [hmean]
    unfold round2
    rw [hround]
    norm_num
  have hlow : (minByScore eduSnap [healthSnap, corrSnap]).PartitionKey
      = "dept-of-corrections" := by
    norm_num [minByScore, List.foldl, eduSnap, healthSnap, corrSnap]
  refine ⟨_, rfl, rfl, ?_, by decide, by decide, by decide, by norm_num [corrSnap], ?_⟩
  · show
      |round2 (pyMean (List.map Snapshot.ComplianceScorePct [eduSnap, healthSnap, corrSnap]))
        - 65.07| ≤ 0.1
    rw [havg]
    norm_num
  · show (minByScore eduSnap [healthSnap, corrSnap]).PartitionKey = corrSnap.PartitionKey
    rw [hlow]
    rfl

/-- C5 counterexample: `normalize_label_tier "Unrestricted"` does not return
`"Public"` (`"restricted"` is a substring of `"unrestricted"` and the
`Restricted` tier is tested first). -/
theorem normalize_label_tier_unrestricted_not_public :
    normalize_label_tier "Unrestricted" "" ≠ "Public" := by decide

/-- C5 amended: `normalize_label_tier "Unrestricted"` returns `"Restricted"`:
`"restricted"` is a `Restricted`-tier keyword, it occurs as a substring of
the lowercased combined string, and `Restricted` has the highest priority —
so the `Public` keyword `"unrestricted"` is never reached. -/
theorem normalize_label_tier_unrestricted_eq_restricted :
    normalize_label_tier "Unrestricted" "" = "Restricted"
      ∧ "restricted" ∈ TIER_KEYWORDS "Restricted"
      ∧ "unrestricted" ∈ TIER_KEYWORDS "Public"
      ∧ strContains (pyLower ("" ++ " " ++ "Unrestricted")) "restricted" = true := by
  refine ⟨by decide, by decide, by decide, by decide⟩

/-- C7: `compute_statewide_aggregates` returns the empty sentinel (`{}`,
modelled `none`) on empty input, and a populated aggregate record (`some`)
on every non-empty input. -/
theorem compute_statewide_aggregates_empty_sentinel :
    (∀ today, compute_statewide_aggregates today [] = none)
      ∧ ∀ today s rest, (compute_statewide_aggregates today (s :: rest)).isSome = true :=
  ⟨fun _ => rfl, fun _ _ _ => rfl⟩

/-- C10: joining parent and label with a space lets a multi-word keyword
match across the boundary: `("Confidential Data", parent "Highly")` yields
`"Restricted"` via the keyword `"highly confidential"`, although `"Highly"`
alone yields `"Internal"` and `"Confidential Data"` alone yields
`"Confidential"`. -/
theorem normalize_label_tier_cross_boundary_escalation :
    normalize_label_tier "Confidential Data" "Highly" = "Restricted"
      ∧ normalize_label_tier "Highly" "" = "Internal"
      ∧ normalize_label_tier "Confidential Data" "" = "Confidential"
      ∧ "highly confidential" ∈ TIER_KEYWORDS "Restricted" := by
  refine ⟨by decide, by decide, by decide, by decide⟩
